import Mathlib

/-
Verification of the spdlog "fastfile" components:
  - `details::fastfile_helper`  (include/spdlog/details/fastfile_helper.h)
  - `sinks::simple_fastfile_sink`, `sinks::rotating_fastfile_sink`,
    `sinks::daily_fastfile_sink`  (include/spdlog/sinks/fastfile_sinks.h)

Modelling decisions:
  - Bytes are `Nat`; a file's contents is a `List Nat`; the file system is a
    total map `String → Option (List Nat)` (`none` = the path does not exist).
  - The helper's Windows branch is embedded.  The POSIX branch of
    `fastfile_helper` is ill-formed C++ (it references the undeclared member
    `m_file_` and the Windows-only function `Truncate`), so the Windows branch
    is the only code path that compiles and is the authority.
  - OS calls (`CreateFile`, `CreateFileMapping`, `MapViewOfFile`, `_chsize_s`,
    `rename`, `remove`) are modelled on their success path; machine integers
    (`size_t`, `long long`, the `int offset_`) are modelled as `Nat`
    (the sizes involved fit comfortably).
  - `MapViewOfFile(mmap_, FILE_MAP_ALL_ACCESS, 0, offset_, max_size_)` maps the
    view starting at *file offset* `offset_`; this is recorded in the model
    field `mapOff`, and `write`'s `memcpy(buf_ + offset_, ...)` therefore
    stores bytes at file position `mapOff + offset_`.
  - Wall-clock time is integer seconds; `localtime`/`mktime` are modelled as
    the inverse pair decomposing an epoch second count into whole days plus
    hour/minute/second of day (no DST, which the claims do not exercise).
-/

/-- A file's contents: a list of bytes (modelled as `Nat`). -/
abbrev FileData := List Nat

/-- The file system: a map from path names to contents; `none` means the
path does not exist. -/
abbrev FS := String → Option FileData

/-- Point update of the file system. -/
def fsUpdate (fs : FS) (p : String) (d : FileData) : FS :=
  fun q => if q = p then some d else fs q

/-- Resize a file's data to exactly `n` bytes, chopping or zero-extending
(the `_chsize_s` semantics used by the Windows `Truncate` helper). -/
def resizeFile (d : FileData) (n : Nat) : FileData :=
  d.take n ++ List.replicate (n - d.length) 0

/-- The source's `Truncate(filename, file_size)` helper: `_open`s the file by
path and `_chsize_s`es it; when the path does not exist, `_open` fails and the
function returns without doing anything. -/
def Truncate (fs : FS) (p : String) (n : Nat) : FS :=
  match fs p with
  | none => fs
  | some d => fsUpdate fs p (resizeFile d n)

/-- `os::file_exists`. -/
def file_exists (fs : FS) (p : String) : Bool :=
  (fs p).isSome

/-- `os::filesize` of the file at `p` (0 when absent; only called on
existing files by the source). -/
def filesize (fs : FS) (p : String) : Nat :=
  ((fs p).getD []).length

/-- `CreateFile(..., OPEN_ALWAYS, ...)`: creates an empty file when the path
does not exist, otherwise leaves it alone. -/
def createFile (fs : FS) (p : String) : FS :=
  match fs p with
  | none => fsUpdate fs p []
  | some _ => fs

/-- `CreateFileMapping(fd, NULL, PAGE_READWRITE, 0, n, NULL)`: extends the
file to `n` bytes when it is smaller; a larger file keeps its size. -/
def extendFile (fs : FS) (p : String) (n : Nat) : FS :=
  match fs p with
  | none => fs
  | some d => fsUpdate fs p (d ++ List.replicate (n - d.length) 0)

/-- Store the byte span `bs` into file data `d` starting at byte position
`pos` (zero-padding should the position lie past the end of the data). -/
def storeBytes (d : FileData) (pos : Nat) (bs : FileData) : FileData :=
  (d.take pos ++ List.replicate (pos - d.length) 0) ++ bs ++ d.drop (pos + bs.length)

/-- `details::fastfile_helper`'s state.  `mapOff` records the file offset at
which `MapViewOfFile` established the view (the source passes `offset_` for
`dwFileOffsetLow`); `isOpen` models `fd_ != INVALID_HANDLE_VALUE`. -/
structure fastfile_helper where
  max_size_ : Nat
  offset_ : Nat
  mapOff : Nat
  isOpen : Bool
  _filename : String

/-- The default constructor: `offset_ = 0`, handles invalid, no filename
recorded yet (`max_size_` is uninitialized in the source; 0 here). -/
def fastfile_helper.init : fastfile_helper :=
  { max_size_ := 0, offset_ := 0, mapOff := 0, isOpen := false, _filename := "" }

/-- `fastfile_helper::close()` (Windows branch): flushes and unmaps the view,
closes the handles, marks the descriptor invalid, and `Truncate`s the file at
`_filename` to `offset_` bytes.  Note that `offset_` and `_filename` are not
reset. -/
def fastfile_helper.close (h : fastfile_helper) (fs : FS) : fastfile_helper × FS :=
  ({ h with isOpen := false }, Truncate fs h._filename h.offset_)

/-- `fastfile_helper::open(fname, max_size, truncate)` (Windows branch,
success path), transliterated statement by statement:
records `max_size_` and `_filename`, calls `close()` (which truncates the file
at the *new* `_filename` to the old `offset_`), optionally `Truncate`s to 0,
adopts the existing file's size as `offset_`, `CreateFile`s with `OPEN_ALWAYS`,
`CreateFileMapping`s with size `max_size_`, and maps the view at file offset
`offset_`. -/
def fastfile_helper.«open» (h : fastfile_helper) (fs : FS) (fname : String)
    (max_size : Nat) (truncate : Bool) : fastfile_helper × FS :=
  let h1 := { h with max_size_ := max_size, _filename := fname }
  let cl := h1.close fs
  let fs1 := if truncate then Truncate cl.2 fname 0 else cl.2
  let h2 := if file_exists fs1 fname then { cl.1 with offset_ := filesize fs1 fname } else cl.1
  let fs2 := createFile fs1 fname
  let fs3 := extendFile fs2 fname max_size
  ({ h2 with mapOff := h2.offset_, isOpen := true }, fs3)

/-- `fastfile_helper::reopen(bool truncate)`: throws when no filename was
recorded; otherwise calls `open(_filename, truncate)`.  In the source that
call binds the `bool truncate` to `open`'s `long long max_size` parameter
(an implicit conversion, giving capacity 1 or 0) while `open`'s own
`truncate` parameter takes its default value `false`. -/
def fastfile_helper.reopen (h : fastfile_helper) (fs : FS) (truncate : Bool) :
    Except String (fastfile_helper × FS) :=
  if h._filename = "" then
    .error "Failed re opening file - was not opened before"
  else
    .ok (h.«open» fs h._filename (if truncate then 1 else 0) false)

/-- `fastfile_helper::write(msg)`: `memcpy(buf_ + offset_, data, msg_size)`
lands at file position `mapOff + offset_` (the view was mapped at file offset
`mapOff`); then `offset_ += msg_size`. -/
def fastfile_helper.write (h : fastfile_helper) (fs : FS) (msg : FileData) :
    fastfile_helper × FS :=
  let fs1 :=
    match fs h._filename with
    | none => fs
    | some d => fsUpdate fs h._filename (storeBytes d (h.mapOff + h.offset_) msg)
  ({ h with offset_ := h.offset_ + msg.length }, fs1)

/-- `fastfile_helper::size()` returns `offset_`. -/
def fastfile_helper.size (h : fastfile_helper) : Nat :=
  h.offset_

/-- `fastfile_helper::filename()`. -/
def fastfile_helper.filename (h : fastfile_helper) : String :=
  h._filename

/-- Run a sequence of `write` calls. -/
def writeList : fastfile_helper × FS → List FileData → fastfile_helper × FS
  | s, [] => s
  | (h, fs), m :: ms => writeList (h.write fs m) ms

/-- Total length of a sequence of byte spans. -/
def sumLens (bs : List FileData) : Nat :=
  (bs.map List.length).sum

/-- `sinks::simple_fastfile_sink`'s state. -/
structure simple_fastfile_sink where
  _fastfile_helper : fastfile_helper
  _force_flush : Bool

/-- `simple_fastfile_sink`'s constructor: opens the backing file with the
hard-coded capacity `256 * 1024 * 1024`. -/
def simple_fastfile_sink.mk_sink (fs : FS) (filename : String) (truncate : Bool) :
    simple_fastfile_sink × FS :=
  let r := fastfile_helper.init.«open» fs filename (256 * 1024 * 1024) truncate
  ({ _fastfile_helper := r.1, _force_flush := false }, r.2)

/-- `rotating_fastfile_sink::calc_filename`: `"{}.{}"` of the base name and
the index when the index is nonzero, the base name alone otherwise. -/
def calc_filename (filename : String) (index : Nat) : String :=
  if index ≠ 0 then filename ++ "." ++ Nat.repr index else filename

/-- `os::remove`. -/
def os_remove (fs : FS) (p : String) : FS :=
  fun q => if q = p then none else fs q

/-- `os::rename(src, target)`. -/
def os_rename (fs : FS) (src target : String) : FS :=
  fun q => if q = target then fs src else if q = src then none else fs q

/-- One iteration of `_rotate`'s loop at index `i`: delete `base.i` when it
exists, then rename `base.(i-1)` to `base.i` when the source exists. -/
def rotate_step (base : String) (i : Nat) (fs : FS) : FS :=
  let src := calc_filename base (i - 1)
  let target := calc_filename base i
  let fs1 := if file_exists fs target then os_remove fs target else fs
  if file_exists fs1 src then os_rename fs1 src target else fs1

/-- `for (auto i = _max_files; i > 0; --i)`: walk the generation indices from
`m` down to `1`, applying `rotate_step` at each. -/
def rotate_loop (base : String) : FS → Nat → FS
  | fs, 0 => fs
  | fs, i + 1 => rotate_loop base (rotate_step base (i + 1) fs) i

/-- `sinks::rotating_fastfile_sink`'s state. -/
structure rotating_fastfile_sink where
  _base_filename : String
  _max_size : Nat
  _max_files : Nat
  _current_size : Nat
  _fastfile_helper : fastfile_helper

/-- `rotating_fastfile_sink`'s constructor: opens generation 0 at
`calc_filename(base, 0)` with capacity `max_size`, no truncation, and
initializes `_current_size` from the helper's reported size. -/
def rotating_fastfile_sink.mk_sink (fs : FS) (base : String)
    (max_size max_files : Nat) : rotating_fastfile_sink × FS :=
  let r := fastfile_helper.init.«open» fs (calc_filename base 0) max_size false
  ({ _base_filename := base, _max_size := max_size, _max_files := max_files,
     _current_size := r.1.size, _fastfile_helper := r.1 }, r.2)

/-- `rotating_fastfile_sink::_rotate()`: close the helper, walk the
delete/rename loop, then `reopen(true)`.  Delete/rename failures throw in the
source; the model's file-system operations always succeed. -/
def rotating_fastfile_sink._rotate (s : rotating_fastfile_sink) (fs : FS) :
    Except String (rotating_fastfile_sink × FS) :=
  let c := s._fastfile_helper.close fs
  let fs1 := rotate_loop s._base_filename c.2 s._max_files
  match c.1.reopen fs1 true with
  | .error e => .error e
  | .ok r => .ok ({ s with _fastfile_helper := r.1 }, r.2)

/-- `rotating_fastfile_sink::_sink_it(msg)`: add the record length to
`_current_size`; when that exceeds `_max_size`, rotate and reset
`_current_size` to the record length; in either case write the record. -/
def rotating_fastfile_sink._sink_it (s : rotating_fastfile_sink) (fs : FS)
    (msg : FileData) : Except String (rotating_fastfile_sink × FS) :=
  let s1 := { s with _current_size := s._current_size + msg.length }
  if s1._max_size < s1._current_size then
    match s1._rotate fs with
    | .error e => .error e
    | .ok r =>
      let s2 := { r.1 with _current_size := msg.length }
      let w := s2._fastfile_helper.write r.2 msg
      .ok ({ s2 with _fastfile_helper := w.1 }, w.2)
  else
    let w := s1._fastfile_helper.write fs msg
    .ok ({ s1 with _fastfile_helper := w.1 }, w.2)

/-- The broken-down time structure (`struct tm`), simplified to a whole-day
count plus hour/minute/second of day. -/
structure tm_t where
  tm_day : Nat
  tm_hour : Nat
  tm_min : Nat
  tm_sec : Nat

/-- `os::localtime`: decompose an epoch second count. -/
def localtime (t : Nat) : tm_t :=
  { tm_day := t / 86400, tm_hour := t % 86400 / 3600,
    tm_min := t % 3600 / 60, tm_sec := t % 60 }

/-- `mktime`: recompose an epoch second count. -/
def mktime (d : tm_t) : Nat :=
  d.tm_day * 86400 + d.tm_hour * 3600 + d.tm_min * 60 + d.tm_sec

/-- `sinks::daily_fastfile_sink`'s state. -/
structure daily_fastfile_sink where
  _base_filename : String
  _rotation_h : Int
  _rotation_m : Int
  _rotation_tp : Nat
  _fastfile_helper : fastfile_helper

/-- `daily_fastfile_sink::_next_rotation_tp()`: take the current time,
overwrite the hour/minute/second of its broken-down form with the configured
rotation time, recompose; use that instant when it is still in the future,
the same time of day one day later otherwise. -/
def daily_fastfile_sink._next_rotation_tp (rh rm : Int) (now : Nat) : Nat :=
  let date := localtime now
  let date1 := { date with tm_hour := rh.toNat, tm_min := rm.toNat, tm_sec := 0 }
  let rotation_time := mktime date1
  if now < rotation_time then rotation_time else rotation_time + 24 * 3600

/-- `daily_fastfile_sink`'s constructor: validate the rotation time, throwing
`"daily_fastfile_sink: Invalid rotation time in ctor"` before any file
operation when it is out of range; otherwise compute the first rotation
instant and open the current period's file named by the external
`FileNameCalc` policy.  The source's `open` call passes no `max_size`
(the call is ill-formed C++); the capacity is the parameter `cap` here.
The file system is returned unchanged on the error path. -/
def daily_fastfile_sink.mk_sink (fnCalc : String → String) (cap now : Nat)
    (fs : FS) (base : String) (rotation_hour rotation_minute : Int) :
    Except String daily_fastfile_sink × FS :=
  if rotation_hour < 0 ∨ 23 < rotation_hour ∨ rotation_minute < 0 ∨ 59 < rotation_minute then
    (.error "daily_fastfile_sink: Invalid rotation time in ctor", fs)
  else
    let tp := daily_fastfile_sink._next_rotation_tp rotation_hour rotation_minute now
    let r := fastfile_helper.init.«open» fs (fnCalc base) cap false
    (.ok { _base_filename := base, _rotation_h := rotation_hour,
           _rotation_m := rotation_minute, _rotation_tp := tp,
           _fastfile_helper := r.1 }, r.2)

/-- The spec's words for C8: "today's rotation instant at
`rotation_hour:rotation_minute:00`", for the day containing `now`. -/
def todayRotationInstant (rh rm : Int) (now : Nat) : Nat :=
  now / 86400 * 86400 + rh.toNat * 3600 + rm.toNat * 60

/-- Decimal digit decoding, used to prove `Nat.repr` injective. -/
def ofDigits (l : List Char) : Nat :=
  l.foldl (fun a c => a * 10 + (c.toNat - 48)) 0

/-! Basic file-system lemmas. -/

theorem fsUpdate_fsUpdate (fs : FS) (p : String) (d e : FileData) :
    fsUpdate (fsUpdate fs p d) p e = fsUpdate fs p e := by
  funext q
  simp only [fsUpdate]
  split <;> rfl

theorem fsUpdate_same (fs : FS) (p : String) (d : FileData) :
    fsUpdate fs p d p = some d := by
  simp [fsUpdate]

theorem length_resizeFile (d : FileData) (n : Nat) :
    (resizeFile d n).length = n := by
  simp only [resizeFile, List.length_append, List.length_take, List.length_replicate]
  omega

theorem resizeFile_of_length (d : FileData) (n : Nat) (h : d.length = n) :
    resizeFile d n = d := by
  subst h
  simp [resizeFile]

theorem Truncate_Truncate (fs : FS) (p : String) (n : Nat) :
    Truncate (Truncate fs p n) p n = Truncate fs p n := by
  unfold Truncate
  cases hfp : fs p with
  | none => simp [hfp]
  | some d =>
    simp only [fsUpdate_same]
    rw [resizeFile_of_length _ _ (length_resizeFile d n), fsUpdate_fsUpdate]

theorem write_fst (h : fastfile_helper) (fs : FS) (m : FileData) :
    (h.write fs m).1 = { h with offset_ := h.offset_ + m.length } := rfl

theorem writeList_cons (s : fastfile_helper × FS) (m : FileData) (ms : List FileData) :
    writeList s (m :: ms) = writeList (s.1.write s.2 m) ms := by
  cases s
  rfl

theorem writeList_offset (bs : List FileData) :
    ∀ (h : fastfile_helper) (fs : FS),
      (writeList (h, fs) bs).1.offset_ = h.offset_ + sumLens bs := by
  induction bs with
  | nil => intro h fs; simp [writeList, sumLens]
  | cons m ms ih =>
    intro h fs
    rw [writeList_cons]
    show (writeList ((h.write fs m).1, (h.write fs m).2) ms).1.offset_ = _
    rw [ih, write_fst]
    simp [sumLens]
    omega

theorem open_max_size (h : fastfile_helper) (fs : FS) (p : String) (c : Nat) (t : Bool) :
    (h.«open» fs p c t).1.max_size_ = c := by
  unfold fastfile_helper.«open» fastfile_helper.close
  dsimp only
  split <;> split <;> rfl

theorem filesize_Truncate_zero (fs : FS) (p : String) :
    filesize (Truncate fs p 0) p = 0 := by
  unfold Truncate filesize
  cases hg : fs p with
  | none => simp [hg]
  | some d => simp [fsUpdate_same, length_resizeFile]

theorem open_init_offset (fs : FS) (p : String) (c : Nat) (t : Bool) :
    (fastfile_helper.init.«open» fs p c t).1.offset_ = 0 := by
  unfold fastfile_helper.«open» fastfile_helper.close fastfile_helper.init
  dsimp only
  cases t with
  | true =>
    rw [if_pos rfl, Truncate_Truncate]
    split
    · exact filesize_Truncate_zero fs p
    · rfl
  | false =>
    rw [if_neg Bool.false_ne_true]
    split
    · exact filesize_Truncate_zero fs p
    · rfl

/-- C9: closing an already-closed mapped append writer is a no-op: `close()`
followed by `close()` yields exactly the state and file system of a single
`close()` (the second call re-truncates the file to the same `offset_`, which
is already its size). -/
theorem claim_C9_close_idempotent (h : fastfile_helper) (fs : FS) :
    (h.close fs).1.close (h.close fs).2 = h.close fs := by
  simp only [fastfile_helper.close, Truncate_Truncate]

/-- C1: after a successful `open` that establishes offset 0, appending any
sequence of byte spans whose total length is at most the capacity leaves
`size()` equal to the sum of the spans' lengths; moreover every single
`write` advances `offset_` by exactly the span's length. -/
theorem claim_C1_append_size_consistency (h₀ : fastfile_helper) (fs₀ : FS)
    (p : String) (c : Nat) (t : Bool) (bs : List FileData)
    (hcap : sumLens bs ≤ c)
    (hz : (h₀.«open» fs₀ p c t).1.offset_ = 0) :
    (writeList (h₀.«open» fs₀ p c t) bs).1.size = sumLens bs ∧
    ∀ (h : fastfile_helper) (fs : FS) (m : FileData),
      (h.write fs m).1.offset_ = h.offset_ + m.length := by
  refine ⟨?_, fun h fs m => rfl⟩
  have hw := writeList_offset bs (h₀.«open» fs₀ p c t).1 (h₀.«open» fs₀ p c t).2
  rw [show ((h₀.«open» fs₀ p c t).1, (h₀.«open» fs₀ p c t).2) = h₀.«open» fs₀ p c t
    from rfl] at hw
  rw [fastfile_helper.size, hw, hz, Nat.zero_add]

theorem claim_C1_witness :
    sumLens [[1], [2, 3]] ≤ 4 ∧
    (fastfile_helper.init.«open» (fun _ => none) "log" 4 false).1.offset_ = 0 ∧
    (writeList (fastfile_helper.init.«open» (fun _ => none) "log" 4 false)
        [[1], [2, 3]]).1.size = sumLens [[1], [2, 3]] :=
  ⟨by decide, by decide,
    (claim_C1_append_size_consistency fastfile_helper.init (fun _ => none) "log" 4 false
      [[1], [2, 3]] (by decide) (by decide)).1⟩

/-- C5 is refuted by the code.  Failing input: a fresh writer and an existing
4-byte file `"log"` (contents `[10, 20, 30, 40]`), opened with capacity 16 and
`truncate = false`.  The claim (and the spec) say the initial offset becomes
4 and later appends follow the prior 4 bytes; the code's `open` sets
`_filename` *before* its internal `close()`, so the `close()` truncates the
file at the new name to the stale `offset_ = 0`, destroying the prior
content, and the adopted offset is 0: the file ends up as 16 zero bytes. -/
theorem claim_C5_resume_code_eval :
    (fastfile_helper.init.«open»
        (fun n => if n = "log" then some [10, 20, 30, 40] else none)
        "log" 16 false).1.offset_ = 0 ∧
    (fastfile_helper.init.«open»
        (fun n => if n = "log" then some [10, 20, 30, 40] else none)
        "log" 16 false).2 "log" = some (List.replicate 16 0) := by
  constructor
  · decide
  · decide

/-- C10: the simple sink's constructor always opens its backing file with the
fixed capacity `256 * 1024 * 1024 = 268435456` bytes, whatever the filename
and truncate arguments; consequently any append sequence that keeps the write
offset within the mapping has total length at most that constant. -/
theorem claim_C10_simple_capacity (fs : FS) (filename : String) (truncate : Bool) :
    (simple_fastfile_sink.mk_sink fs filename truncate).1._fastfile_helper.max_size_
      = 268435456 ∧
    ∀ bs : List FileData,
      (writeList ((simple_fastfile_sink.mk_sink fs filename truncate).1._fastfile_helper,
          (simple_fastfile_sink.mk_sink fs filename truncate).2) bs).1.offset_ ≤ 268435456 →
      sumLens bs ≤ 268435456 := by
  constructor
  · show (fastfile_helper.init.«open» fs filename (256 * 1024 * 1024) truncate).1.max_size_ = _
    rw [open_max_size]
  · intro bs hb
    rw [writeList_offset] at hb
    have hz : (simple_fastfile_sink.mk_sink fs filename truncate).1._fastfile_helper.offset_ = 0 :=
      open_init_offset fs filename (256 * 1024 * 1024) truncate
    rw [hz, Nat.zero_add] at hb
    exact hb

theorem claim_C10_witness :
    (writeList ((simple_fastfile_sink.mk_sink (fun _ => none) "log" false).1._fastfile_helper,
        (simple_fastfile_sink.mk_sink (fun _ => none) "log" false).2) [[1]]).1.offset_
      ≤ 268435456 ∧
    sumLens [[1]] ≤ 268435456 :=
  ⟨by decide, (claim_C10_simple_capacity (fun _ => none) "log" false).2 [[1]] (by decide)⟩

theorem length_storeBytes (d : FileData) (pos : Nat) (bs : FileData)
    (hle : pos + bs.length ≤ d.length) : (storeBytes d pos bs).length = d.length := by
  simp only [storeBytes, List.length_append, List.length_take, List.length_replicate,
    List.length_drop]
  omega

theorem open_fresh_spec (fs₀ : FS) (p : String) (c : Nat) (hp : fs₀ p = none) :
    fastfile_helper.init.«open» fs₀ p c false =
      ({ max_size_ := c, offset_ := 0, mapOff := 0, isOpen := true, _filename := p },
       fsUpdate fs₀ p (List.replicate c 0)) := by
  have h1 : Truncate fs₀ p 0 = fs₀ := by unfold Truncate; rw [hp]
  have h2 : createFile fs₀ p = fsUpdate fs₀ p [] := by unfold createFile; rw [hp]
  have h3 : extendFile (fsUpdate fs₀ p []) p c = fsUpdate fs₀ p (List.replicate c 0) := by
    unfold extendFile
    rw [fsUpdate_same]
    dsimp only
    rw [fsUpdate_fsUpdate]
    simp
  unfold fastfile_helper.«open» fastfile_helper.close fastfile_helper.init
  dsimp only
  rw [if_neg Bool.false_ne_true, h1, h2, h3]
  have h4 : file_exists fs₀ p = false := by unfold file_exists; rw [hp]; rfl
  rw [h4]
  rfl

theorem writeList_filename (bs : List FileData) :
    ∀ (h : fastfile_helper) (fs : FS),
      (writeList (h, fs) bs).1._filename = h._filename := by
  induction bs with
  | nil => intro h fs; rfl
  | cons m ms ih =>
    intro h fs
    rw [writeList_cons]
    show (writeList ((h.write fs m).1, (h.write fs m).2) ms).1._filename = _
    rw [ih, write_fst]

theorem writeList_file (bs : List FileData) :
    ∀ (h : fastfile_helper) (fs : FS) (d : FileData),
      fs h._filename = some d →
      h.mapOff + h.offset_ + sumLens bs ≤ d.length →
      ∃ d' : FileData,
        (writeList (h, fs) bs).2 h._filename = some d' ∧ d'.length = d.length := by
  induction bs with
  | nil => intro h fs d hd _; exact ⟨d, hd, rfl⟩
  | cons m ms ih =>
    intro h fs d hd hle
    have hsum : sumLens (m :: ms) = m.length + sumLens ms := by simp [sumLens]
    rw [hsum] at hle
    rw [writeList_cons]
    have hw : h.write fs m =
        ({ h with offset_ := h.offset_ + m.length },
         fsUpdate fs h._filename (storeBytes d (h.mapOff + h.offset_) m)) := by
      unfold fastfile_helper.write
      rw [hd]
    rw [hw]
    have hlen : (storeBytes d (h.mapOff + h.offset_) m).length = d.length :=
      length_storeBytes _ _ _ (by omega)
    obtain ⟨d', hd', hl'⟩ := ih { h with offset_ := h.offset_ + m.length }
      (fsUpdate fs h._filename (storeBytes d (h.mapOff + h.offset_) m))
      (storeBytes d (h.mapOff + h.offset_) m) (fsUpdate_same _ _ _)
      (by dsimp only; rw [hlen]; omega)
    exact ⟨d', hd', hl'.trans hlen⟩

/-- C4: opening a fresh file with capacity `c`, appending spans totalling
`k < c` bytes, then closing, leaves the physical file at exactly `k` bytes:
the preallocated slack `[k, c)` does not survive `close()`. -/
theorem claim_C4_close_reclaims_slack (fs₀ : FS) (p : String) (c : Nat)
    (bs : List FileData) (hp : fs₀ p = none) (hk : sumLens bs < c) :
    ∃ d : FileData,
      ((writeList (fastfile_helper.init.«open» fs₀ p c false) bs).1.close
          (writeList (fastfile_helper.init.«open» fs₀ p c false) bs).2).2 p = some d ∧
      d.length = sumLens bs := by
  rw [open_fresh_spec fs₀ p c hp]
  have hopen : (fastfile_helper.mk c 0 0 true p)._filename = p := rfl
  obtain ⟨d', hd', hlen⟩ := writeList_file bs (fastfile_helper.mk c 0 0 true p)
    (fsUpdate fs₀ p (List.replicate c 0)) (List.replicate c 0)
    (by rw [hopen]; exact fsUpdate_same _ _ _)
    (by simp; omega)
  have hfn := writeList_filename bs (fastfile_helper.mk c 0 0 true p)
    (fsUpdate fs₀ p (List.replicate c 0))
  have hoff := writeList_offset bs (fastfile_helper.mk c 0 0 true p)
    (fsUpdate fs₀ p (List.replicate c 0))
  unfold fastfile_helper.close
  rw [hopen] at hd'
  rw [hfn, hoff, hopen]
  dsimp only
  unfold Truncate
  rw [hd']
  dsimp only
  rw [fsUpdate_same]
  exact ⟨_, rfl, by rw [length_resizeFile]; omega⟩

theorem claim_C4_witness :
    ((fun _ => none : FS) "log" = none) ∧ sumLens [[1], [2]] < 4 ∧
    ∃ d : FileData,
      ((writeList (fastfile_helper.init.«open» (fun _ => none) "log" 4 false)
          [[1], [2]]).1.close
        (writeList (fastfile_helper.init.«open» (fun _ => none) "log" 4 false)
          [[1], [2]]).2).2 "log" = some d ∧
      d.length = sumLens [[1], [2]] :=
  ⟨rfl, by decide,
    claim_C4_close_reclaims_slack (fun _ => none) "log" 4 [[1], [2]] rfl (by decide)⟩

set_option maxRecDepth 4096 in
/-- C3 is refuted by the code.  `reopen(truncate)` calls
`open(_filename, truncate)`, binding the `bool truncate` to `open`'s
`long long max_size` parameter (implicit conversion to 1) while `open`'s own
`truncate` parameter defaults to `false`.  At the concrete input below
(a writer open on `"log"` with capacity 32 and offset 5), `reopen(true)`
yields capacity 1, offset 5 and an untruncated 5-byte file, whereas the
claimed equivalent `close(); open("log", 32, true)` yields capacity 32,
offset 0 and a zeroed 32-byte file. -/
theorem claim_C3_reopen_code_eval :
    ∃ r : fastfile_helper × FS,
      fastfile_helper.reopen ⟨32, 5, 0, true, "log"⟩
        (fun n => if n = "log" then some (List.replicate 32 7) else none) true = .ok r ∧
      r.1.max_size_ = 1 ∧ r.1.offset_ = 5 ∧ r.2 "log" = some (List.replicate 5 7) ∧
      ((let cl := (⟨32, 5, 0, true, "log"⟩ : fastfile_helper).close
          (fun n => if n = "log" then some (List.replicate 32 7) else none)
        let sp := cl.1.«open» cl.2 "log" 32 true
        sp.1.max_size_ = 32 ∧ sp.1.offset_ = 0 ∧
          sp.2 "log" = some (List.replicate 32 0)) : Prop) :=
  ⟨_, rfl, by decide, by decide, by decide, by decide, by decide, by decide⟩

/-- C7: constructing the daily sink with a rotation hour outside `[0, 23]` or
a rotation minute outside `[0, 59]` fails with the invalid-configuration
error before any file operation: the returned file system is the input file
system, untouched. -/
theorem claim_C7_invalid_config (fnCalc : String → String) (cap now : Nat)
    (fs : FS) (base : String) (rh rm : Int)
    (hbad : rh < 0 ∨ 23 < rh ∨ rm < 0 ∨ 59 < rm) :
    daily_fastfile_sink.mk_sink fnCalc cap now fs base rh rm =
      (.error "daily_fastfile_sink: Invalid rotation time in ctor", fs) := by
  unfold daily_fastfile_sink.mk_sink
  rw [if_pos hbad]

theorem claim_C7_witness :
    ((24 : Int) < 0 ∨ (23 : Int) < 24 ∨ (0 : Int) < 0 ∨ (59 : Int) < 0) ∧
    daily_fastfile_sink.mk_sink id 8 0 (fun _ => none) "log" 24 0 =
      (.error "daily_fastfile_sink: Invalid rotation time in ctor", (fun _ => none : FS)) :=
  ⟨by decide, claim_C7_invalid_config id 8 0 (fun _ => none) "log" 24 0 (by decide)⟩

/-- C8: for a valid rotation time, `_next_rotation_tp` returns today's
instant at `rotation_hour:rotation_minute:00` when that instant is strictly
in the future, and the same time of day on the following day otherwise; in
both cases the result is strictly later than `now`. -/
theorem claim_C8_next_rotation (rh rm : Int) (now : Nat)
    (hh0 : 0 ≤ rh) (hh : rh ≤ 23) (hm0 : 0 ≤ rm) (hm : rm ≤ 59) :
    daily_fastfile_sink._next_rotation_tp rh rm now =
      (if now < todayRotationInstant rh rm now then todayRotationInstant rh rm now
       else todayRotationInstant rh rm now + 86400) ∧
    now < daily_fastfile_sink._next_rotation_tp rh rm now := by
  unfold daily_fastfile_sink._next_rotation_tp mktime localtime todayRotationInstant
  dsimp only
  constructor
  · generalize now / 86400 * 86400 + rh.toNat * 3600 + rm.toNat * 60 = T
    simp only [Nat.add_zero]
  · split <;> omega

theorem claim_C8_witness :
    ((0 : Int) ≤ 0 ∧ (0 : Int) ≤ 23 ∧ (0 : Int) ≤ 0 ∧ (0 : Int) ≤ 59) ∧
    (daily_fastfile_sink._next_rotation_tp 0 0 86399 =
      (if 86399 < todayRotationInstant 0 0 86399 then todayRotationInstant 0 0 86399
       else todayRotationInstant 0 0 86399 + 86400) ∧
     86399 < daily_fastfile_sink._next_rotation_tp 0 0 86399) :=
  ⟨⟨by decide, by decide, by decide, by decide⟩,
    claim_C8_next_rotation 0 0 86399 (by decide) (by decide) (by decide) (by decide)⟩

theorem close_filename (h : fastfile_helper) (fs : FS) :
    (h.close fs).1._filename = h._filename := rfl

theorem reopen_ok_true (h : fastfile_helper) (fs : FS) (hne : h._filename ≠ "") :
    h.reopen fs true = .ok (h.«open» fs h._filename 1 false) := by
  unfold fastfile_helper.reopen
  rw [if_neg hne]
  rfl

/-- C2: for every record handed to the size-rotating sink, a rotation is
performed if and only if `current_size + len(record) > max_size`; on rotation
`current_size` is reset to `len(record)`, otherwise it increases by exactly
`len(record)`; and in both cases the record is then written to the underlying
mapped writer (in the non-rotating case the step is exactly a write, with no
other effect). -/
theorem claim_C2_rotating_trigger (s : rotating_fastfile_sink) (fs : FS)
    (msg : FileData) (hne : s._fastfile_helper._filename ≠ "") :
    ∃ s' fs', s._sink_it fs msg = .ok (s', fs') ∧
      ((s._max_size < s._current_size + msg.length ∧
        ∃ sr fsr, s._rotate fs = .ok (sr, fsr) ∧
          s'._current_size = msg.length ∧
          s'._fastfile_helper = (sr._fastfile_helper.write fsr msg).1 ∧
          fs' = (sr._fastfile_helper.write fsr msg).2) ∨
       (s._current_size + msg.length ≤ s._max_size ∧
        s'._current_size = s._current_size + msg.length ∧
        s'._fastfile_helper = (s._fastfile_helper.write fs msg).1 ∧
        fs' = (s._fastfile_helper.write fs msg).2)) := by
  have hrot : ∀ u : rotating_fastfile_sink, u._fastfile_helper = s._fastfile_helper →
      u._base_filename = s._base_filename → u._max_files = s._max_files →
      u._rotate fs = .ok
        ({ u with _fastfile_helper := ((s._fastfile_helper.close fs).1.«open»
              (rotate_loop s._base_filename (s._fastfile_helper.close fs).2 s._max_files)
              s._fastfile_helper._filename 1 false).1 },
          ((s._fastfile_helper.close fs).1.«open»
            (rotate_loop s._base_filename (s._fastfile_helper.close fs).2 s._max_files)
            s._fastfile_helper._filename 1 false).2) := by
    intro u h1 h2 h3
    unfold rotating_fastfile_sink._rotate
    dsimp only
    rw [h1, h2, h3, reopen_ok_true _ _ (by rw [close_filename]; exact hne), close_filename]
  by_cases hc : s._max_size < s._current_size + msg.length
  · have h1 := hrot { s with _current_size := s._current_size + msg.length } rfl rfl rfl
    have h2 := hrot s rfl rfl rfl
    unfold rotating_fastfile_sink._sink_it
    dsimp only
    rw [if_pos hc, h1]
    exact ⟨_, _, rfl, Or.inl ⟨hc, _, _, h2, rfl, rfl, rfl⟩⟩
  · unfold rotating_fastfile_sink._sink_it
    dsimp only
    rw [if_neg hc]
    exact ⟨_, _, rfl, Or.inr ⟨Nat.le_of_not_lt hc, rfl, rfl, rfl⟩⟩

theorem claim_C2_witness :
    ((⟨"log", 10, 2, 4, ⟨10, 4, 0, true, "log"⟩⟩ :
        rotating_fastfile_sink)._fastfile_helper._filename ≠ "") ∧
    (∃ s' fs',
      rotating_fastfile_sink._sink_it ⟨"log", 10, 2, 4, ⟨10, 4, 0, true, "log"⟩⟩
          (fun _ => none) [1, 2] = .ok (s', fs') ∧
      (((⟨"log", 10, 2, 4, ⟨10, 4, 0, true, "log"⟩⟩ :
            rotating_fastfile_sink)._max_size <
          (⟨"log", 10, 2, 4, ⟨10, 4, 0, true, "log"⟩⟩ :
            rotating_fastfile_sink)._current_size + [1, 2].length ∧
        ∃ sr fsr,
          rotating_fastfile_sink._rotate ⟨"log", 10, 2, 4, ⟨10, 4, 0, true, "log"⟩⟩
              (fun _ => none) = .ok (sr, fsr) ∧
          s'._current_size = [1, 2].length ∧
          s'._fastfile_helper = (sr._fastfile_helper.write fsr [1, 2]).1 ∧
          fs' = (sr._fastfile_helper.write fsr [1, 2]).2) ∨
       ((⟨"log", 10, 2, 4, ⟨10, 4, 0, true, "log"⟩⟩ :
            rotating_fastfile_sink)._current_size + [1, 2].length ≤
          (⟨"log", 10, 2, 4, ⟨10, 4, 0, true, "log"⟩⟩ :
            rotating_fastfile_sink)._max_size ∧
        s'._current_size =
          (⟨"log", 10, 2, 4, ⟨10, 4, 0, true, "log"⟩⟩ :
            rotating_fastfile_sink)._current_size + [1, 2].length ∧
        s'._fastfile_helper =
          ((⟨"log", 10, 2, 4, ⟨10, 4, 0, true, "log"⟩⟩ :
            rotating_fastfile_sink)._fastfile_helper.write (fun _ => none) [1, 2]).1 ∧
        fs' =
          ((⟨"log", 10, 2, 4, ⟨10, 4, 0, true, "log"⟩⟩ :
            rotating_fastfile_sink)._fastfile_helper.write (fun _ => none) [1, 2]).2))) :=
  ⟨by decide,
    claim_C2_rotating_trigger ⟨"log", 10, 2, 4, ⟨10, 4, 0, true, "log"⟩⟩
      (fun _ => none) [1, 2] (by decide)⟩

theorem toDigitsCore_append (b : Nat) :
    ∀ (fuel n : Nat) (acc : List Char),
      Nat.toDigitsCore b fuel n acc = Nat.toDigitsCore b fuel n [] ++ acc := by
  intro fuel
  induction fuel with
  | zero => intro n acc; rfl
  | succ f ih =>
    intro n acc
    simp only [Nat.toDigitsCore]
    by_cases h : n / b = 0
    · simp [h]
    · rw [if_neg h, if_neg h, ih (n / b) (Nat.digitChar (n % b) :: acc),
        ih (n / b) [Nat.digitChar (n % b)]]
      simp

theorem digitChar_val (n : Nat) (h : n < 10) : (Nat.digitChar n).toNat - 48 = n := by
  interval_cases n <;> rfl

theorem ofDigits_append_singleton (l : List Char) (c : Char) :
    ofDigits (l ++ [c]) = ofDigits l * 10 + (c.toNat - 48) := by
  simp [ofDigits, List.foldl_append]

theorem toDigitsCore_ofDigits :
    ∀ (fuel n : Nat), n < fuel → ofDigits (Nat.toDigitsCore 10 fuel n []) = n := by
  intro fuel
  induction fuel with
  | zero => intro n h; omega
  | succ f ih =>
    intro n hn
    simp only [Nat.toDigitsCore]
    by_cases h : n / 10 = 0
    · rw [if_pos h]
      have h1 : ofDigits [Nat.digitChar (n % 10)] = (Nat.digitChar (n % 10)).toNat - 48 := by
        simp [ofDigits]
      rw [h1, digitChar_val (n % 10) (Nat.mod_lt n (by omega))]
      omega
    · rw [if_neg h, toDigitsCore_append 10 f (n / 10) [Nat.digitChar (n % 10)],
        ofDigits_append_singleton, ih (n / 10) (by omega),
        digitChar_val (n % 10) (Nat.mod_lt n (by omega))]
      omega

theorem toDigits_inj (m n : Nat) (h : Nat.toDigits 10 m = Nat.toDigits 10 n) : m = n := by
  have hm := toDigitsCore_ofDigits (m + 1) m (Nat.lt_succ_self m)
  have hn := toDigitsCore_ofDigits (n + 1) n (Nat.lt_succ_self n)
  unfold Nat.toDigits at h
  rw [h] at hm
  omega

theorem calc_filename_inj (base : String) {i j : Nat}
    (h : calc_filename base i = calc_filename base j) : i = j := by
  unfold calc_filename at h
  have hdot : ("." : String).data.length = 1 := rfl
  by_cases hi : i = 0 <;> by_cases hj : j = 0
  · omega
  · exfalso
    rw [if_neg (by omega : ¬i ≠ 0), if_pos hj] at h
    have hd := congrArg String.data h
    rw [String.data_append, String.data_append] at hd
    have hl := congrArg List.length hd
    simp only [List.length_append, hdot] at hl
    omega
  · exfalso
    rw [if_pos hi, if_neg (by omega : ¬j ≠ 0)] at h
    have hd := congrArg String.data h
    rw [String.data_append, String.data_append] at hd
    have hl := congrArg List.length hd
    simp only [List.length_append, hdot] at hl
    omega
  · rw [if_pos hi, if_pos hj] at h
    have hd := congrArg String.data h
    rw [String.data_append, String.data_append, String.data_append,
      String.data_append] at hd
    exact toDigits_inj i j (List.append_cancel_left hd)

theorem rotate_step_spec (base : String) (i : Nat) (fs : FS)
    (hne : calc_filename base (i - 1) ≠ calc_filename base i) :
    (rotate_step base i fs) (calc_filename base i) = fs (calc_filename base (i - 1)) ∧
    (rotate_step base i fs) (calc_filename base (i - 1)) = none ∧
    ∀ n, n ≠ calc_filename base i → n ≠ calc_filename base (i - 1) →
      (rotate_step base i fs) n = fs n := by
  refine ⟨?_, ?_, fun n h1 h2 => ?_⟩
  · rcases htv : fs (calc_filename base i) with _ | dt <;>
      rcases hsv : fs (calc_filename base (i - 1)) with _ | ds <;>
        simp [rotate_step, file_exists, os_remove, os_rename, htv, hsv, hne, Ne.symm hne]
  · rcases htv : fs (calc_filename base i) with _ | dt <;>
      rcases hsv : fs (calc_filename base (i - 1)) with _ | ds <;>
        simp [rotate_step, file_exists, os_remove, os_rename, htv, hsv, hne, Ne.symm hne]
  · rcases htv : fs (calc_filename base i) with _ | dt <;>
      rcases hsv : fs (calc_filename base (i - 1)) with _ | ds <;>
        simp [rotate_step, file_exists, os_remove, os_rename, htv, hsv, hne, Ne.symm hne,
          h1, h2]

theorem rotate_loop_spec (base : String) :
    ∀ (m : Nat) (fs : FS),
      (∀ i, 1 ≤ i → i ≤ m →
        rotate_loop base fs m (calc_filename base i) = fs (calc_filename base (i - 1))) ∧
      (1 ≤ m → rotate_loop base fs m (calc_filename base 0) = none) ∧
      (∀ n, (∀ k, k ≤ m → n ≠ calc_filename base k) → rotate_loop base fs m n = fs n) := by
  intro m
  induction m with
  | zero =>
    intro fs
    exact ⟨fun i h1 h2 => by omega, fun h => by omega, fun n _ => rfl⟩
  | succ m ih =>
    intro fs
    obtain ⟨hs1, hs2, hs3⟩ := rotate_step_spec base (m + 1) fs
      (fun he => by have := calc_filename_inj base he; omega)
    obtain ⟨ih1, ih2, ih3⟩ := ih (rotate_step base (m + 1) fs)
    have hloop : rotate_loop base fs (m + 1) =
        rotate_loop base (rotate_step base (m + 1) fs) m := rfl
    refine ⟨?_, ?_, ?_⟩
    · intro i hi1 hi2
      rw [hloop]
      rcases Nat.lt_or_ge i (m + 1) with hlt | hge
      · rw [ih1 i hi1 (by omega)]
        exact hs3 (calc_filename base (i - 1))
          (fun he => by have := calc_filename_inj base he; omega)
          (fun he => by have := calc_filename_inj base he; omega)
      · have hieq : i = m + 1 := by omega
        subst hieq
        rw [ih3 (calc_filename base (m + 1))
          (fun k hk he => by have := calc_filename_inj base he; omega)]
        exact hs1
    · intro _
      rw [hloop]
      by_cases hm : 1 ≤ m
      · exact ih2 hm
      · have hm0 : m = 0 := by omega
        subst hm0
        exact hs2
    · intro n hn
      rw [hloop, ih3 n (fun k hk => hn k (by omega))]
      exact hs3 n (hn (m + 1) (by omega)) (hn m (by omega))

theorem isSome_Truncate (fs : FS) (p : String) (n : Nat) (q : String) :
    ((Truncate fs p n) q).isSome = (fs q).isSome := by
  unfold Truncate fsUpdate
  rcases hp : fs p with _ | d
  · rfl
  · dsimp only
    by_cases hq : q = p
    · subst hq
      rw [if_pos rfl, hp]
      rfl
    · rw [if_neg hq]

theorem isSome_extendFile (fs : FS) (p : String) (n : Nat) (q : String) :
    ((extendFile fs p n) q).isSome = (fs q).isSome := by
  unfold extendFile fsUpdate
  rcases hp : fs p with _ | d
  · rfl
  · dsimp only
    by_cases hq : q = p
    · subst hq
      rw [if_pos rfl, hp]
      rfl
    · rw [if_neg hq]

theorem isSome_createFile (fs : FS) (p : String) (q : String) :
    ((createFile fs p) q).isSome = true → q = p ∨ (fs q).isSome = true := by
  unfold createFile fsUpdate
  rcases hp : fs p with _ | d
  · dsimp only
    by_cases hq : q = p
    · exact fun _ => Or.inl hq
    · rw [if_neg hq]
      exact fun hh => Or.inr hh
  · exact fun hh => Or.inr hh

theorem isSome_open (h : fastfile_helper) (fs : FS) (p : String) (c : Nat) (t : Bool)
    (q : String) :
    (((h.«open» fs p c t).2) q).isSome = true → q = p ∨ (fs q).isSome = true := by
  unfold fastfile_helper.«open» fastfile_helper.close
  cases t with
  | false =>
    dsimp only
    intro hq
    rw [isSome_extendFile] at hq
    rcases isSome_createFile _ _ _ hq with he | he
    · exact Or.inl he
    · rw [if_neg Bool.false_ne_true, isSome_Truncate] at he
      exact Or.inr he
  | true =>
    dsimp only
    intro hq
    rw [isSome_extendFile] at hq
    rcases isSome_createFile _ _ _ hq with he | he
    · exact Or.inl he
    · rw [if_pos rfl, isSome_Truncate, isSome_Truncate] at he
      exact Or.inr he

theorem rotate_loop_support (base : String) (m : Nat) (fs : FS) (n : String)
    (hs : (rotate_loop base fs m n).isSome = true) :
    (∃ k, k ≤ m ∧ n = calc_filename base k) ∨ (fs n).isSome = true := by
  by_cases hn : ∃ k, k ≤ m ∧ n = calc_filename base k
  · exact Or.inl hn
  · push_neg at hn
    obtain ⟨-, -, h3⟩ := rotate_loop_spec base m fs
    rw [h3 n (fun k hk => hn k hk)] at hs
    exact Or.inr hs

/-- C6: the rotation walk goes from `max_files` down to `1`, deleting
`base.i` when it exists and renaming `base.(i-1)` to `base.i` when it exists:
afterwards generation `i` holds exactly what generation `i-1` held (so the
previous content of `base.max_files` is evicted), and the active name
`base` is gone from the walk's result; moreover a full `_rotate` keeps every
live file within the `max_files + 1` generation names
`base, base.1, ..., base.max_files`, a set of at most `max_files + 1`
names. -/
theorem claim_C6_rotation_shift_retention (base : String) (mf : Nat) (fs : FS)
    (h : fastfile_helper) (hfn : h._filename = calc_filename base 0) :
    (∀ i, 1 ≤ i → i ≤ mf →
      rotate_loop base fs mf (calc_filename base i) = fs (calc_filename base (i - 1))) ∧
    (1 ≤ mf → rotate_loop base fs mf (calc_filename base 0) = none) ∧
    (∀ smax scur : Nat, ∀ s' : rotating_fastfile_sink, ∀ fs' : FS,
      rotating_fastfile_sink._rotate ⟨base, smax, mf, scur, h⟩ fs = .ok (s', fs') →
      (∀ n, (fs n).isSome = true → ∃ k, k ≤ mf ∧ n = calc_filename base k) →
      ∀ n, (fs' n).isSome = true → ∃ k, k ≤ mf ∧ n = calc_filename base k) ∧
    ((Finset.range (mf + 1)).image (calc_filename base)).card ≤ mf + 1 := by
  obtain ⟨l1, l2, l3⟩ := rotate_loop_spec base mf fs
  refine ⟨l1, l2, ?_, ?_⟩
  · intro smax scur s' fs' hrot hsup n hn
    unfold rotating_fastfile_sink._rotate at hrot
    dsimp only at hrot
    cases hre : (fastfile_helper.close h fs).1.reopen
        (rotate_loop base (fastfile_helper.close h fs).2 mf) true with
    | error e =>
      rw [hre] at hrot
      exact absurd hrot (by simp)
    | ok r =>
      rw [hre] at hrot
      dsimp only at hrot
      injection hrot with hp
      injection hp with hp1 hp2
      unfold fastfile_helper.reopen at hre
      split at hre
      · exact absurd hre (by simp)
      · injection hre with hre'
        rw [← hp2, ← hre'] at hn
        rcases isSome_open _ _ _ _ _ n hn with hq | hq
        · refine ⟨0, by omega, ?_⟩
          rw [hq, close_filename, hfn]
        · rcases rotate_loop_support base mf _ n hq with ⟨k, hk, he⟩ | hq2
          · exact ⟨k, hk, he⟩
          · have hq3 : ((Truncate fs h._filename h.offset_) n).isSome = true := hq2
            rw [isSome_Truncate] at hq3
            exact hsup n hq3
  · calc ((Finset.range (mf + 1)).image (calc_filename base)).card
        ≤ (Finset.range (mf + 1)).card := Finset.card_image_le
    _ = mf + 1 := Finset.card_range (mf + 1)

theorem claim_C6_witness :
    ((fastfile_helper.mk 8 0 0 true "log")._filename = calc_filename "log" 0) ∧
    ((∀ i, 1 ≤ i → i ≤ 2 →
        rotate_loop "log" (fun _ => none) 2 (calc_filename "log" i) =
          (fun _ => none : FS) (calc_filename "log" (i - 1))) ∧
     (1 ≤ 2 → rotate_loop "log" (fun _ => none) 2 (calc_filename "log" 0) = none) ∧
     (∀ smax scur : Nat, ∀ s' : rotating_fastfile_sink, ∀ fs' : FS,
        rotating_fastfile_sink._rotate
            ⟨"log", smax, 2, scur, fastfile_helper.mk 8 0 0 true "log"⟩
            (fun _ => none) = .ok (s', fs') →
        (∀ n, ((fun _ => none : FS) n).isSome = true →
          ∃ k, k ≤ 2 ∧ n = calc_filename "log" k) →
        ∀ n, (fs' n).isSome = true → ∃ k, k ≤ 2 ∧ n = calc_filename "log" k) ∧
     ((Finset.range (2 + 1)).image (calc_filename "log")).card ≤ 2 + 1) :=
  ⟨by decide,
    claim_C6_rotation_shift_retention "log" 2 (fun _ => none)
      (fastfile_helper.mk 8 0 0 true "log") (by decide)⟩
